import Mathlib

/-!
Shallow embedding of the request router and caching proxy of the
Interstellar repository (src/index.js, src/unnamed/part_000,
src/unnamed/part_001), together with theorems checking the frozen claims
about the specification.

The three source files are three variants of the same Express server.
JavaScript strings are modelled as Lean `String`, with the character-level
operations the handlers use (startsWith, slice, includes, split) defined
over `String.data` so that they compute transparently.  JS `Map` is
modelled as an insertion-ordered association list.  The upstream `fetch`
is a parameter of the environment: a function from the upstream request
the handler constructs to an abstract result (transport error, or a
status code with a body).  Handlers thread the cache explicitly and log
every upstream request they issue.
-/

namespace Interstellar

/-! ## Character-level string operations (models of the JS string methods) -/

/-- Model of JS `String.prototype.startsWith`: is the first string a prefix
of the second (character by character). -/
def strStartsWith (p s : String) : Bool :=
  p.data.isPrefixOf s.data

/-- Model of JS `String.prototype.slice(n)`: drop the first `n` characters. -/
def strDrop (n : Nat) (s : String) : String :=
  String.mk (s.data.drop n)

/-- Character length of a string (JS `String.prototype.length` for the
ASCII inputs that appear in this server). -/
def strLen (s : String) : Nat :=
  s.data.length

/-- Helper for `strIncludes`: does `sub` occur contiguously inside `s`. -/
def listHasInfix (sub : List Char) : List Char → Bool
  | [] => sub.isEmpty
  | c :: t => sub.isPrefixOf (c :: t) || listHasInfix sub t

/-- Model of JS `String.prototype.includes`. -/
def strIncludes (s sub : String) : Bool :=
  listHasInfix sub.data s.data

/-- Model of JS `String.prototype.split(sep)` for a one-character
separator, at the character-list level. -/
def splitOnChar (sep : Char) : List Char → List (List Char)
  | [] => [[]]
  | c :: t =>
    let r := splitOnChar sep t
    if c = sep then [] :: r
    else
      match r with
      | h :: t' => (c :: h) :: t'
      | [] => [[c]]

/-- Lower-case an ASCII letter (model of the lower-casing done by the
mime lookup on extensions). -/
def charLowercase (c : Char) : Char :=
  if 'A' ≤ c ∧ c ≤ 'Z' then Char.ofNat (c.toNat + 32) else c

/-- Lower-case a string, character by character. -/
def strLowercase (s : String) : String :=
  String.mk (s.data.map charLowercase)

/-! ## Requests, upstream fetches, responses -/

/-- An inbound HTTP request as the Express handlers see it.
`path` is `req.path` (the path portion of the URL), `url` is `req.url`
(path plus optional query string), `headers` is the inbound header map
with lower-cased names as Node delivers it, and `remoteAddress` is
`req.connection.remoteAddress` (empty when unavailable). -/
structure Request where
  method : String
  path : String
  url : String
  headers : List (String × String)
  remoteAddress : String
deriving DecidableEq

/-- Model of `req.headers[name]` with a missing header read as the empty
string (JS `|| ""` on the use sites). -/
def headerGet (req : Request) (name : String) : String :=
  ((req.headers.find? (fun h => h.1 == name)).map (fun h => h.2)).getD ""

/-- One forwarded fetch: the target URL, the HTTP method used, and the
header set sent to the upstream (the data model item UpstreamRequest). -/
structure UpstreamRequest where
  url : String
  method : String
  headers : List (String × String)
deriving DecidableEq

/-- Result of one upstream fetch: a transport failure (the promise
rejects), or a response with a status code and a raw byte body. -/
inductive FetchResult where
  | transportError
  | response (status : Nat) (body : List Nat)
deriving DecidableEq

/-- Model of node-fetch `res.ok`: status in the 2xx range. -/
def isOk (status : Nat) : Bool :=
  (200 ≤ status) && (status < 300)

/-- What a handler writes back to the client:
`payload` models `res.writeHead(status, contentType); res.end(data)`
(the content type is optional because `mime.getType` can return null in
src/index.js), `text` models `res.status(status).send(string)`, and
`file` models `res.status(status).sendFile(name)` or `res.sendFile`. -/
inductive Response where
  | payload (status : Nat) (contentType : Option String) (body : List Nat)
  | text (status : Nat) (body : String)
  | file (status : Nat) (name : String)
deriving DecidableEq

/-! ## The asset cache (JS `Map`, insertion-ordered association list) -/

/-- One cached remote asset: body bytes, resolved content type, and the
insertion timestamp (`Date.now()` at insertion). -/
structure CacheEntry where
  data : List Nat
  contentType : Option String
  timestamp : Nat
deriving DecidableEq

/-- The cache: a JS `Map` from request path to entry, modelled as an
insertion-ordered association list with at most one pair per key. -/
abbrev Cache := List (String × CacheEntry)

/-- Model of `cache.has(k)`. -/
def mapHas (c : Cache) (k : String) : Bool :=
  c.any (fun p => p.1 == k)

/-- Model of `cache.get(k)`. -/
def mapGet (c : Cache) (k : String) : Option CacheEntry :=
  (c.find? (fun p => p.1 == k)).map (fun p => p.2)

/-- Model of `cache.set(k, v)`: overwrite in place when the key is
present, append otherwise (JS `Map` insertion order). -/
def mapSet (c : Cache) (k : String) (v : CacheEntry) : Cache :=
  if mapHas c k then c.map (fun p => if p.1 == k then (k, v) else p)
  else c ++ [(k, v)]

/-- Model of `cache.delete(k)`. -/
def mapDelete (c : Cache) (k : String) : Cache :=
  c.filter (fun p => !(p.1 == k))

/-- Model of `cache.size`. -/
def cacheSize (c : Cache) : Nat :=
  c.length

/-- The keys of the cache in insertion order. -/
def keysOf (c : Cache) : List String :=
  c.map (fun p => p.1)

/-- `CACHE_TTL = 30 * 24 * 60 * 60 * 1000` (all three variants). -/
def CACHE_TTL : Nat := 30 * 24 * 60 * 60 * 1000

/-- `MAX_CACHE_SIZE = 100` (src/unnamed/part_000 line 23 and
src/unnamed/part_001; src/index.js has no size constant). -/
def MAX_CACHE_SIZE : Nat := 100

/-- The cache lookup inlined at the top of every /e/* handler
(src/index.js lines 53-61, part_000 lines 67-76, part_001 likewise):
on a present, fresh entry return it; on a present, expired entry
(`Date.now() - timestamp > CACHE_TTL`) delete it and fall through to a
miss.  Timestamps never exceed `now` in reachable states; `Nat`
subtraction agrees with the JS comparison there. -/
def cacheLookup (now : Nat) (c : Cache) (k : String) : Option CacheEntry × Cache :=
  if mapHas c k then
    match mapGet c k with
    | some e =>
      if CACHE_TTL < now - e.timestamp then (none, mapDelete c k)
      else (some e, c)
    | none => (none, c)
  else (none, c)

/-! ## Extension and MIME handling -/

/-- Model of Node `path.extname` for ordinary file names: the extension
of the last path segment, from its last dot (inclusive); empty when the
segment has no dot or only a leading dot.  (The Node special cases for
segments consisting solely of dots do not arise for the asset URLs this
server builds.) -/
def extname (s : String) : String :=
  let base := s.data.foldl (fun acc c => if c = '/' then [] else acc ++ [c]) []
  let dotIdxs := (List.range base.length).filter (fun i => base.get? i = some '.')
  match dotIdxs.getLast? with
  | some i => if i = 0 then "" else String.mk (base.drop i)
  | none => ""

/-- The relevant rows of the MIME table consulted by the `mime` npm
package (backed by mime-db).  mime-db maps the extension `unityweb` to
`application/vnd.unity` (Apache mime.types source), which is why
src/index.js carries an explicit override for it. -/
def mimeTable : List (String × String) :=
  [ ("unityweb", "application/vnd.unity"),
    ("json", "application/json"),
    ("html", "text/html"),
    ("png", "image/png"),
    ("txt", "text/plain") ]

/-- Model of `mime.getType` as the handlers call it (argument is the
output of `path.extname`): take the part after the last dot, lower-case
it, and look it up; null when there is no extension or no table row. -/
def mimeGetType (ext : String) : Option String :=
  let e := String.mk (((splitOnChar '.' ext.data).getLast?).getD [])
  if e == "" then none
  else (mimeTable.find? (fun p => p.1 == strLowercase e)).map (fun p => p.2)

/-- The `no = [".unityweb"]` override list of src/index.js line 88. -/
def noOverride : List String := [".unityweb"]

/-- Content-type resolution of src/index.js lines 87-91: force
`application/octet-stream` for the overridden extensions, otherwise use
the generic MIME lookup (which can be null). -/
def ctIndex (target : String) : Option String :=
  let ext := extname target
  if noOverride.any (fun x => x == ext) then some "application/octet-stream"
  else mimeGetType ext

/-- Content-type resolution of part_000 line 109 and part_001: generic
MIME lookup with `application/octet-stream` only as the null fallback,
and no override for `.unityweb`. -/
def ctSized (target : String) : String :=
  (mimeGetType (extname target)).getD "application/octet-stream"

/-! ## Upstream URL resolution for the asset proxy -/

/-- The `baseUrls` route mapping (identical in all three variants):
an explicitly ordered list of prefix/base pairs, first match wins
(`Object.entries` iterates in insertion order and the loop breaks at the
first match). -/
def baseUrls : List (String × String) :=
  [ ("/e/1/", "https://raw.githubusercontent.com/qrs/x/fixy/"),
    ("/e/2/", "https://raw.githubusercontent.com/3v1/V5-Assets/main/"),
    ("/e/3/", "https://raw.githubusercontent.com/3v1/V5-Retro/master/") ]

/-- The prefix loop of the /e/* handlers: the first matching prefix is
replaced by its base URL and the remainder of the path is appended
verbatim; no match yields none. -/
def resolveTarget (p : String) : Option String :=
  (baseUrls.find? (fun pr => strStartsWith pr.1 p)).map
    (fun pr => pr.2 ++ strDrop (strLen pr.1) p)

/-! ## Pipeline plumbing -/

/-- The outcome of running a middleware stage (or a whole app): an
optional response (none means the stage called `next()`), the cache
after the stage, and the upstream requests fetched by the stage. -/
structure StageOut where
  response : Option Response
  cache : Cache
  fetches : List UpstreamRequest
deriving DecidableEq

/-- Sequence two pipeline stages: if the first responded, the second
never runs; otherwise run the second on the resulting cache and
accumulate the fetch log. -/
def StageOut.andThen (s : StageOut) (k : Cache → StageOut) : StageOut :=
  match s.response with
  | some _ => s
  | none =>
    let t := k s.cache
    { response := t.response, cache := t.cache, fetches := s.fetches ++ t.fetches }

/-- The environment a request is handled in: the behavior of the
network (`fetch`), the current clock value (`Date.now()`), and the set
of paths that exist under the static content root. -/
structure Env where
  fetch : UpstreamRequest → FetchResult
  now : Nat
  staticFiles : List String

/-- Does a request match the `app.get("/e/*", ...)` route: GET method
and a path starting with `/e/`. -/
def matchesE (req : Request) : Bool :=
  (req.method == "GET") && strStartsWith "/e/" req.path

/-- Does a request match the `app.get("/a/*", ...)` route of part_000. -/
def matchesA (req : Request) : Bool :=
  (req.method == "GET") && strStartsWith "/a/" req.path

/-! ## The /e/* asset-proxy handlers -/

/-- The /e/* handler of src/index.js (lines 51-101): cache lookup with
TTL expiry, first-match prefix resolution, a plain GET to the upstream
with no forwarded headers, decline on a non-2xx upstream response,
content type with the `.unityweb` override, cache insertion, 200
response; a transport failure is caught and surfaced as a 500 text
response.  No cache size check exists in this variant. -/
def eStageIndex (env : Env) (req : Request) (c : Cache) : StageOut :=
  if matchesE req then
    match cacheLookup env.now c req.path with
    | (some e, c') => { response := some (.payload 200 e.contentType e.data), cache := c', fetches := [] }
    | (none, c') =>
      match resolveTarget req.path with
      | none => { response := none, cache := c', fetches := [] }
      | some target =>
        let ur : UpstreamRequest := { url := target, method := "GET", headers := [] }
        match env.fetch ur with
        | .transportError =>
          { response := some (.text 500 "Error fetching the asset"), cache := c', fetches := [ur] }
        | .response s body =>
          if isOk s then
            let ct := ctIndex target
            let entry : CacheEntry := { data := body, contentType := ct, timestamp := env.now }
            { response := some (.payload 200 ct body), cache := mapSet c' req.path entry, fetches := [ur] }
          else { response := none, cache := c', fetches := [ur] }
  else { response := none, cache := c, fetches := [] }

/-- The /e/* handler of part_000 (lines 61-119) and part_001 (the same
code registered after the 404 catch-all): a `cache.size > MAX_CACHE_SIZE`
pre-check that clears the whole cache, then the same lookup and
resolution, but the upstream fetch forwards the inbound method and the
full inbound header set, and the content type has no `.unityweb`
override. -/
def eStageSized (env : Env) (req : Request) (c : Cache) : StageOut :=
  if matchesE req then
    let c0 := if MAX_CACHE_SIZE < cacheSize c then [] else c
    match cacheLookup env.now c0 req.path with
    | (some e, c') => { response := some (.payload 200 e.contentType e.data), cache := c', fetches := [] }
    | (none, c') =>
      match resolveTarget req.path with
      | none => { response := none, cache := c', fetches := [] }
      | some target =>
        let ur : UpstreamRequest := { url := target, method := req.method, headers := req.headers }
        match env.fetch ur with
        | .transportError =>
          { response := some (.text 500 "Error fetching the asset"), cache := c', fetches := [ur] }
        | .response s body =>
          if isOk s then
            let ct := ctSized target
            let entry : CacheEntry := { data := body, contentType := some ct, timestamp := env.now }
            { response := some (.payload 200 (some ct) body), cache := mapSet c' req.path entry, fetches := [ur] }
          else { response := none, cache := c', fetches := [ur] }
  else { response := none, cache := c, fetches := [] }

/-! ## Percent decoding and query handling (generic proxy, key check) -/

/-- Is the character an ASCII hexadecimal digit. -/
def isHexDigit (c : Char) : Bool :=
  c.isDigit || (('a' ≤ c) && (c ≤ 'f')) || (('A' ≤ c) && (c ≤ 'F'))

/-- Numeric value of an ASCII hexadecimal digit. -/
def hexVal (c : Char) : Nat :=
  if c.isDigit then c.toNat - '0'.toNat
  else if 'a' ≤ c then c.toNat - 'a'.toNat + 10
  else c.toNat - 'A'.toNat + 10

/-- Model of `decodeURIComponent` on character lists, exact for
single-byte (ASCII) percent escapes, which cover every URL this server
is given in the spec; a malformed escape is `none` (JS throws a
URIError, which the handlers catch). -/
def percentDecodeChars : List Char → Option (List Char)
  | [] => some []
  | '%' :: h₁ :: h₂ :: t =>
    if isHexDigit h₁ && isHexDigit h₂ then
      (percentDecodeChars t).map (fun r => Char.ofNat (16 * hexVal h₁ + hexVal h₂) :: r)
    else none
  | '%' :: _ => none
  | c :: t => (percentDecodeChars t).map (fun r => c :: r)

/-- `decodeURIComponent` on strings. -/
def percentDecodeStr (s : String) : Option String :=
  (percentDecodeChars s.data).map String.mk

/-- Model of `req.url.split("?")[1] || ""`: the text between the first
and second question mark of the URL, empty when there is no query. -/
def queryOf (url : String) : String :=
  String.mk (((splitOnChar '?' url.data).get? 1).getD [])

/-- Value of a query parameter: the text after `name=` in the first
`&`-separated piece that starts with it (model of `req.query[name]`,
read as the empty string when absent). -/
def queryParam (q : String) (name : String) : String :=
  (((splitOnChar '&' q.data).map String.mk).findSome?
    (fun kv => if strStartsWith (name ++ "=") kv then some (strDrop (strLen name + 1) kv) else none)).getD ""

/-! ## The /a/* generic proxy handler (part_000 lines 143-173) -/

/-- The generic proxy: take the encoded part of the path after `/a/`,
decode it, reattach the query string from `req.url` after a literal
question mark, fetch that target with the inbound method and the full
inbound header set, and forward the buffered body with the MIME-derived
content type; a non-2xx upstream status is surfaced as that same status,
and a thrown decode or transport failure as a 500.  The cache is never
touched. -/
def aStage (env : Env) (req : Request) (c : Cache) : StageOut :=
  if matchesA req then
    let encodedTargetUrl := strDrop 3 req.path
    match percentDecodeStr encodedTargetUrl with
    | none => { response := some (.text 500 "Proxy Error"), cache := c, fetches := [] }
    | some decodedTargetUrl =>
      let queryString := queryOf req.url
      let fullUrl := decodedTargetUrl ++ "?" ++ queryString
      let ur : UpstreamRequest := { url := fullUrl, method := req.method, headers := req.headers }
      match env.fetch ur with
      | .transportError => { response := some (.text 500 "Proxy Error"), cache := c, fetches := [ur] }
      | .response s body =>
        if isOk s then
          let ct := (mimeGetType (extname decodedTargetUrl)).getD "application/octet-stream"
          { response := some (.payload 200 (some ct) body), cache := c, fetches := [ur] }
        else { response := some (.text s "Proxy Error"), cache := c, fetches := [ur] }
  else { response := none, cache := c, fetches := [] }

/-! ## Access gates -/

/-- The single allowed IP of the src/index.js filter middleware. -/
def allowedIp : String := "100.8.18.37"

/-- The Google Sites referer URL configured in src/index.js line 38 and
as `ALLOWED_REFERER` in part_001. -/
def googleSiteReferer : String :=
  "https://sites.google.com/hoboken.k12.nj.us/g0odgam3siteforsch0ol-unbl0ck/"

/-- `req.connection.remoteAddress || req.headers[\x22x-forwarded-for\x22]`
of src/index.js line 40, with a falsy address read as empty. -/
def requesterIp (req : Request) : String :=
  if req.remoteAddress == "" then headerGet req "x-forwarded-for" else req.remoteAddress

/-- The blocking condition of the src/index.js filter middleware
(lines 36-48): neither the allowed IP nor a referer containing the
Google Sites URL. -/
def gateIndexBlocks (req : Request) : Bool :=
  (!(requesterIp req == allowedIp)) && (!(strIncludes (headerGet req "referer") googleSiteReferer))

/-- The src/index.js filter middleware as a pipeline stage: respond 403
Forbidden when blocked, otherwise call `next()`. -/
def gateIndexStage (req : Request) (c : Cache) : StageOut :=
  if gateIndexBlocks req then { response := some (.text 403 "Forbidden"), cache := c, fetches := [] }
  else { response := none, cache := c, fetches := [] }

/-- The referer read by the part_001 gate:
`req.get("Referer") || "No Referer"`. -/
def refererOrDefault (req : Request) : String :=
  if headerGet req "referer" == "" then "No Referer" else headerGet req "referer"

/-- The part_001 gate middleware (its lines 26-42): a referer not
exactly equal to `ALLOWED_REFERER` is answered 403 Access Denied before
anything else runs. -/
def gate001Stage (req : Request) (c : Cache) : StageOut :=
  if !(refererOrDefault req == googleSiteReferer) then
    { response := some (.text 403 "Access Denied"), cache := c, fetches := [] }
  else { response := none, cache := c, fetches := [] }

/-! ## Static serving, fixed routes, 404 -/

/-- Model of `express.static`: serve the file when the request is a GET
for a path that exists under the static root, otherwise decline. -/
def staticStage (env : Env) (req : Request) (c : Cache) : StageOut :=
  if (req.method == "GET") && env.staticFiles.any (fun f => f == req.path) then
    { response := some (.file 200 req.path), cache := c, fetches := [] }
  else { response := none, cache := c, fetches := [] }

/-- The `/assets/ultra/*` middleware of src/index.js (lines 109-121):
for paths under that prefix, serve the joined file when it exists
(existence modelled by membership of the request path in the static
file set), otherwise decline. -/
def staticUltraStage (env : Env) (req : Request) (c : Cache) : StageOut :=
  if strStartsWith "/assets/ultra/" req.path then
    if env.staticFiles.any (fun f => f == req.path) then
      { response := some (.file 200 req.path), cache := c, fetches := [] }
    else { response := none, cache := c, fetches := [] }
  else { response := none, cache := c, fetches := [] }

/-- The fixed route table (identical in all three variants). -/
def routes : List (String × String) :=
  [ ("/yz", "apps.html"),
    ("/up", "games.html"),
    ("/play.html", "games.html"),
    ("/vk", "settings.html"),
    ("/rx", "tabs.html"),
    ("/", "index.html") ]

/-- The fixed HTML routes as a stage: an exact GET path match serves the
mapped file. -/
def routesStage (req : Request) (c : Cache) : StageOut :=
  if req.method == "GET" then
    match routes.find? (fun r => r.1 == req.path) with
    | some r => { response := some (.file 200 r.2), cache := c, fetches := [] }
    | none => { response := none, cache := c, fetches := [] }
  else { response := none, cache := c, fetches := [] }

/-- The catch-all 404 middleware: always responds with the 404 page. -/
def notFoundStage (c : Cache) : StageOut :=
  { response := some (.file 404 "404.html"), cache := c, fetches := [] }

/-- The Express final handler for a request no stage responded to
(part_000 has no catch-all of its own). -/
def defaultEnd (c : Cache) : StageOut :=
  { response := some (.text 404 "Cannot GET"), cache := c, fetches := [] }

/-! ## The /fq key-validation route of part_000 (lines 125-140) -/

/-- The valid key set of part_000 line 122. -/
def VALID_KEYS : List String := ["validitiy"]

/-- The /fq key-validation handler: no key yields 403, an unknown key
yields 403, a valid key yields 200.  A throwing decode would reach the
Express default 500. -/
def fqStage (req : Request) (c : Cache) : StageOut :=
  if (req.method == "GET") && (req.path == "/fq") then
    match percentDecodeStr (queryParam (queryOf req.url) "key") with
    | none => { response := some (.text 500 "Internal Server Error"), cache := c, fetches := [] }
    | some key =>
      if key == "" then { response := some (.text 403 "Access Denied: No Key Provided"), cache := c, fetches := [] }
      else if !(VALID_KEYS.any (fun v => v == key)) then
        { response := some (.text 403 "Access Denied: Invalid Key"), cache := c, fetches := [] }
      else { response := some (.text 200 "Iframe Request Successful!"), cache := c, fetches := [] }
  else { response := none, cache := c, fetches := [] }

/-! ## The three application pipelines

Pure no-op middlewares (cookie and body parsers, the Permissions-Policy
header setter, the cors mount for /fq, request logging, the iframe
detector that only logs) are omitted: they unconditionally call
`next()` without touching the cache or responding.  The optional
basic-auth middleware is config-dependent and is an excluded external
collaborator in the spec; the pipelines are modelled with the challenge
disabled. -/

/-- The src/index.js pipeline in registration order: IP/referer gate,
/e/* handler, /assets/ultra/* middleware, static serving, fixed routes,
catch-all 404. -/
def indexApp (env : Env) (req : Request) (c : Cache) : StageOut :=
  (gateIndexStage req c).andThen fun c =>
  (eStageIndex env req c).andThen fun c =>
  (staticUltraStage env req c).andThen fun c =>
  (staticStage env req c).andThen fun c =>
  (routesStage req c).andThen fun c =>
  notFoundStage c

/-- The part_000 pipeline in registration order: static serving, fixed
routes, /e/* handler, /fq key check, /a/* generic proxy, and the Express
final handler (this variant registers no catch-all 404 page). -/
def part000App (env : Env) (req : Request) (c : Cache) : StageOut :=
  (staticStage env req c).andThen fun c =>
  (routesStage req c).andThen fun c =>
  (eStageSized env req c).andThen fun c =>
  (fqStage req c).andThen fun c =>
  (aStage env req c).andThen fun c =>
  defaultEnd c

/-- The part_001 pipeline in registration order: referer gate, static
serving, fixed routes, catch-all 404, and only then the /e/* handler
(its lines 291-294 register the 404 middleware before the /e/* route of
lines 303-361, so the handler sits behind a stage that always
responds). -/
def part001App (env : Env) (req : Request) (c : Cache) : StageOut :=
  (gate001Stage req c).andThen fun c =>
  (staticStage env req c).andThen fun c =>
  (routesStage req c).andThen fun c =>
  (notFoundStage c).andThen fun c =>
  (eStageSized env req c).andThen fun c =>
  defaultEnd c

/-! ## The dual-protocol router (identical in all three variants) -/

/-- The two kinds of inbound connection events on the HTTP server. -/
inductive ConnKind where
  | plain
  | upgrade
deriving DecidableEq

/-- Where the router sends a connection. -/
inductive Dispatch where
  | bareServer
  | appPipeline
  | socketTerminated
deriving DecidableEq

/-- The `server.on("request")` and `server.on("upgrade")` dispatch:
when `bareServer.shouldRoute(req)` is true the connection is handed to
the tunneling sub-server; otherwise a plain request enters the ordinary
pipeline and an upgrade request has its socket ended immediately. -/
def route (shouldRoute : Bool) (k : ConnKind) : Dispatch :=
  match k with
  | .plain => if shouldRoute then .bareServer else .appPipeline
  | .upgrade => if shouldRoute then .bareServer else .socketTerminated

/-! ## Iterated handler runs and concrete fixtures -/

/-- Run the part_000/part_001 /e/* handler over a sequence of requests,
threading the cache (the handler is the only code that mutates the
cache). -/
def runE (env : Env) (reqs : List Request) (c : Cache) : Cache :=
  reqs.foldl (fun acc r => (eStageSized env r acc).cache) c

/-- An environment whose upstream always answers 200 with a one-byte
body, at clock 0, with no static files. -/
def envOk : Env :=
  { fetch := fun _ => .response 200 [7], now := 0, staticFiles := [] }

/-- An environment whose upstream fetch always fails at the transport
level. -/
def envDown : Env :=
  { fetch := fun _ => .transportError, now := 0, staticFiles := [] }

/-- The i-th distinct asset path used to exercise the cache bound:
`/e/1/` followed by i copies of the letter a. -/
def mkPath (i : Nat) : String :=
  String.mk ('/' :: 'e' :: '/' :: '1' :: '/' :: List.replicate i 'a')

/-- A plain GET request for the i-th distinct asset path. -/
def mkReq (i : Nat) : Request :=
  { method := "GET", path := mkPath i, url := mkPath i, headers := [], remoteAddress := "" }

/-- A GET request for /e/1/foo.png carrying the allowed Google Sites
referer (so both gates pass). -/
def reqPng : Request :=
  { method := "GET", path := "/e/1/foo.png", url := "/e/1/foo.png",
    headers := [("referer", googleSiteReferer)], remoteAddress := "" }

/-- A GET request for /e/1/foo.png carrying a cookie header, used to
observe header forwarding by the sized /e/* handler. -/
def reqCookie : Request :=
  { method := "GET", path := "/e/1/foo.png", url := "/e/1/foo.png",
    headers := [("cookie", "secret")], remoteAddress := "" }

/-- A GET request for /e/1/foo.unityweb. -/
def reqUnity : Request :=
  { method := "GET", path := "/e/1/foo.unityweb", url := "/e/1/foo.unityweb",
    headers := [], remoteAddress := "" }

/-- A GET request for /e/9/anything (no matching prefix) carrying the
allowed referer. -/
def reqNoPrefix : Request :=
  { method := "GET", path := "/e/9/anything", url := "/e/9/anything",
    headers := [("referer", googleSiteReferer)], remoteAddress := "" }

/-- A generic-proxy GET request for the percent-encoded URL
https://example.com/x.json with query v=2 and one inbound header. -/
def reqProxy : Request :=
  { method := "GET",
    path := "/a/https%3A%2F%2Fexample.com%2Fx.json",
    url := "/a/https%3A%2F%2Fexample.com%2Fx.json?v=2",
    headers := [("accept", "application/json")], remoteAddress := "" }

/-- A request with a foreign referer and a non-allowed remote address. -/
def reqForeign : Request :=
  { method := "GET", path := "/e/1/foo.png", url := "/e/1/foo.png",
    headers := [("referer", "https://evil.example/page")], remoteAddress := "9.9.9.9" }

/-- An environment whose upstream always answers 404 with an empty
body. -/
def env404 : Env :=
  { fetch := fun _ => .response 404 [], now := 0, staticFiles := [] }

/-- The ok-upstream environment observed after the TTL has fully
elapsed (clock at CACHE_TTL + 1). -/
def envLate : Env :=
  { fetch := fun _ => .response 200 [7], now := CACHE_TTL + 1, staticFiles := [] }

/-- A cache entry inserted at clock 0. -/
def entryOld : CacheEntry :=
  { data := [1], contentType := some "text/plain", timestamp := 0 }

/-- A one-entry cache holding /e/1/x.txt inserted at clock 0. -/
def cacheExp : Cache := [("/e/1/x.txt", entryOld)]

/-- A GET request for the cached path /e/1/x.txt. -/
def reqExp : Request :=
  { method := "GET", path := "/e/1/x.txt", url := "/e/1/x.txt",
    headers := [], remoteAddress := "" }

/-! ## Helper lemmas -/

theorem strMkData (s : String) : String.mk s.data = s := rfl

theorem dataAppend (a b : String) : (a ++ b).data = a.data ++ b.data := by
  cases a
  cases b
  rfl

theorem isPrefixOf_append_self (l t : List Char) : (l.isPrefixOf (l ++ t)) = true := by
  induction l with
  | nil => cases t <;> rfl
  | cons h hs ih => simp [List.isPrefixOf, ih]

theorem strStartsWith_append (p s : String) : strStartsWith p (p ++ s) = true := by
  simp [strStartsWith, dataAppend, isPrefixOf_append_self]

theorem strDrop_len_append (p s : String) : strDrop (strLen p) (p ++ s) = s := by
  simp [strDrop, strLen, dataAppend, List.drop_left]

theorem exists_append_of_startsWith (p s : String) (h : strStartsWith p s = true) :
    ∃ t : List Char, s.data = p.data ++ t := by
  obtain ⟨t, ht⟩ := List.isPrefixOf_iff_prefix.mp h
  exact ⟨t, ht.symm⟩

theorem andThen_some (r : Response) (c : Cache) (fs : List UpstreamRequest)
    (k : Cache → StageOut) :
    (StageOut.mk (some r) c fs).andThen k = StageOut.mk (some r) c fs := rfl

theorem andThen_none_nil (c : Cache) (k : Cache → StageOut) :
    (StageOut.mk none c []).andThen k = k c := rfl

theorem mapHas_false_of_not_mem (c : Cache) (k : String) (h : k ∉ keysOf c) :
    mapHas c k = false := by
  apply List.any_eq_false.mpr
  intro p hp
  simp only [beq_iff_eq]
  intro hk
  exact h (List.mem_map.mpr ⟨p, hp, hk⟩)

theorem mapHas_of_mapGet (c : Cache) (k : String) (e : CacheEntry)
    (h : mapGet c k = some e) : mapHas c k = true := by
  unfold mapGet at h
  cases hf : c.find? (fun q => q.1 == k) with
  | none => rw [hf] at h; cases h
  | some q =>
    have hq := List.find?_some hf
    exact List.any_eq_true.mpr ⟨q, List.mem_of_find?_eq_some hf, hq⟩

theorem mapGet_eq_none (c : Cache) (k : String) (h : mapHas c k = false) :
    mapGet c k = none := by
  unfold mapGet
  rw [List.find?_eq_none.mpr]
  · rfl
  · exact List.any_eq_false.mp h

theorem mapSet_of_not_has (c : Cache) (k : String) (v : CacheEntry)
    (h : mapHas c k = false) : mapSet c k v = c ++ [(k, v)] := by
  simp [mapSet, h]

theorem cacheSize_mapDelete_le (c : Cache) (k : String) :
    cacheSize (mapDelete c k) ≤ cacheSize c :=
  List.length_filter_le _ c

theorem cacheSize_mapSet_le (c : Cache) (k : String) (v : CacheEntry) :
    cacheSize (mapSet c k v) ≤ cacheSize c + 1 := by
  unfold mapSet
  split
  · simp [cacheSize]
  · simp [cacheSize]

theorem keysOf_append (c d : Cache) : keysOf (c ++ d) = keysOf c ++ keysOf d := by
  simp [keysOf]

theorem keysOf_length (c : Cache) : (keysOf c).length = cacheSize c := by
  simp [keysOf, cacheSize]

theorem mapHas_false_of_get_none (c : Cache) (k : String) (h : mapGet c k = none) :
    mapHas c k = false := by
  unfold mapGet at h
  cases hf : c.find? (fun q => q.1 == k) with
  | some q => rw [hf] at h; cases h
  | none =>
    exact List.any_eq_false.mpr (List.find?_eq_none.mp hf)

theorem cacheLookup_has_get (now : Nat) (c : Cache) (k : String) (e2 : CacheEntry)
    (hg : mapGet c k = some e2) :
    cacheLookup now c k =
      if CACHE_TTL < now - e2.timestamp then (none, mapDelete c k) else (some e2, c) := by
  have hh := mapHas_of_mapGet c k e2 hg
  simp [cacheLookup, hh, hg]

theorem cacheLookup_of_not_has (now : Nat) (c : Cache) (k : String)
    (h : mapHas c k = false) : cacheLookup now c k = (none, c) := by
  simp [cacheLookup, h]

theorem cacheLookup_snd_size (now : Nat) (c : Cache) (k : String) :
    cacheSize (cacheLookup now c k).2 ≤ cacheSize c := by
  unfold cacheLookup
  split
  · split
    · split
      · exact cacheSize_mapDelete_le c k
      · exact Nat.le_refl _
    · exact Nat.le_refl _
  · exact Nat.le_refl _

theorem resolveTarget_e1 (p : String) (h : strStartsWith "/e/1/" p = true) :
    resolveTarget p =
      some ("https://raw.githubusercontent.com/qrs/x/fixy/" ++ strDrop 5 p) := by
  unfold resolveTarget baseUrls
  rw [List.find?_cons_of_pos]
  · rfl
  · exact h

theorem startsWith_e1_eq_false_of_e2 (p : String) (h : strStartsWith "/e/2/" p = true) :
    strStartsWith "/e/1/" p = false := by
  obtain ⟨t, ht⟩ := exists_append_of_startsWith _ _ h
  unfold strStartsWith
  rw [ht]
  rfl

theorem startsWith_e1_eq_false_of_e3 (p : String) (h : strStartsWith "/e/3/" p = true) :
    strStartsWith "/e/1/" p = false := by
  obtain ⟨t, ht⟩ := exists_append_of_startsWith _ _ h
  unfold strStartsWith
  rw [ht]
  rfl

theorem startsWith_e2_eq_false_of_e3 (p : String) (h : strStartsWith "/e/3/" p = true) :
    strStartsWith "/e/2/" p = false := by
  obtain ⟨t, ht⟩ := exists_append_of_startsWith _ _ h
  unfold strStartsWith
  rw [ht]
  rfl

theorem resolveTarget_e2 (p : String) (h : strStartsWith "/e/2/" p = true) :
    resolveTarget p =
      some ("https://raw.githubusercontent.com/3v1/V5-Assets/main/" ++ strDrop 5 p) := by
  unfold resolveTarget baseUrls
  rw [List.find?_cons_of_neg]
  · rw [List.find?_cons_of_pos]
    · rfl
    · exact h
  · simp [startsWith_e1_eq_false_of_e2 p h]

theorem resolveTarget_e3 (p : String) (h : strStartsWith "/e/3/" p = true) :
    resolveTarget p =
      some ("https://raw.githubusercontent.com/3v1/V5-Retro/master/" ++ strDrop 5 p) := by
  unfold resolveTarget baseUrls
  rw [List.find?_cons_of_neg]
  · rw [List.find?_cons_of_neg]
    · rw [List.find?_cons_of_pos]
      · rfl
      · exact h
    · simp [startsWith_e2_eq_false_of_e3 p h]
  · simp [startsWith_e1_eq_false_of_e3 p h]

/-! ## Claim theorems -/

/-- C6: every connection (plain or upgrade) for which the tunneling
sub-server routing predicate returns true is dispatched to the
sub-server and never enters the ordinary pipeline (static or proxy
handlers), and an upgrade request the predicate declines has its socket
terminated immediately, never reaching the pipeline. -/
theorem c6_router_dispatch :
    (∀ k, route true k = Dispatch.bareServer) ∧
    (∀ k, route true k ≠ Dispatch.appPipeline) ∧
    route false ConnKind.upgrade = Dispatch.socketTerminated := by
  refine ⟨fun k => ?_, fun k => ?_, rfl⟩ <;> cases k <;> decide

/-- C4: the inlined cache lookup returns an entry exactly when it is
present and not expired (now - createdAt at most TTL); a present but
expired entry is deleted as a side effect and the result is a miss, and
the /e/* handler run on such an expired entry performs exactly one new
upstream fetch. -/
theorem c4_lookup_semantics : ∀ (now : Nat) (c : Cache) (k : String) (e : CacheEntry),
    ((cacheLookup now c k).1 = some e ↔
       (mapGet c k = some e ∧ now - e.timestamp ≤ CACHE_TTL)) ∧
    (mapGet c k = some e → CACHE_TTL < now - e.timestamp →
       cacheLookup now c k = (none, mapDelete c k)) ∧
    (∀ (env : Env) (req : Request) (t : String), env.now = now → req.path = k →
       matchesE req = true → mapGet c k = some e → CACHE_TTL < now - e.timestamp →
       resolveTarget k = some t → (eStageIndex env req c).fetches.length = 1) := by
  intro now c k e
  have hdel : mapGet c k = some e → CACHE_TTL < now - e.timestamp →
      cacheLookup now c k = (none, mapDelete c k) := by
    intro hg hexp
    rw [cacheLookup_has_get now c k e hg, if_pos hexp]
  refine ⟨?_, hdel, ?_⟩
  · constructor
    · intro hfst
      cases hg : mapGet c k with
      | none =>
        rw [cacheLookup_of_not_has now c k (mapHas_false_of_get_none c k hg)] at hfst
        cases hfst
      | some e2 =>
        rw [cacheLookup_has_get now c k e2 hg] at hfst
        by_cases hexp : CACHE_TTL < now - e2.timestamp
        · rw [if_pos hexp] at hfst; cases hfst
        · rw [if_neg hexp] at hfst
          have he : some e2 = some e := hfst
          cases he
          exact ⟨rfl, by omega⟩
    · rintro ⟨hg, hfresh⟩
      rw [cacheLookup_has_get now c k e hg, if_neg (by omega)]
  · intro env req t henv hpath hm hg hexp hres
    have hL := hdel hg hexp
    unfold eStageIndex
    rw [hm, henv, hpath, hL, hres]
    simp only [if_true]
    cases hf : env.fetch { url := t, method := "GET", headers := [] } with
    | transportError => rfl
    | response s body =>
      by_cases hok : isOk s = true
      · simp [hok]
      · simp [hok]

/-- C4 witness: at clock CACHE_TTL + 1, the entry inserted at clock 0
is deleted by the lookup and the handler performs exactly one upstream
fetch. -/
theorem c4_lookup_semantics_witness :
    cacheLookup (CACHE_TTL + 1) cacheExp "/e/1/x.txt" =
      (none, mapDelete cacheExp "/e/1/x.txt") ∧
    (eStageIndex envLate reqExp cacheExp).fetches.length = 1 :=
  ⟨(c4_lookup_semantics (CACHE_TTL + 1) cacheExp "/e/1/x.txt" entryOld).2.1 rfl (by decide),
   (c4_lookup_semantics (CACHE_TTL + 1) cacheExp "/e/1/x.txt" entryOld).2.2 envLate reqExp
     "https://raw.githubusercontent.com/qrs/x/fixy/x.txt" rfl rfl (by decide) rfl (by decide) rfl⟩

/-- C10: in the gated variants, a request whose referer does not match
the configured Google Sites URL (and, in src/index.js, whose requester
IP is not the single allowed address) is answered 403 with the cache
untouched and no fetch performed — no proxy handler, cache operation,
or static route runs. -/
theorem c10_gate_forbids : ∀ (env : Env) (req : Request) (c : Cache),
    ((requesterIp req == allowedIp) = false →
      strIncludes (headerGet req "referer") googleSiteReferer = false →
      indexApp env req c =
        { response := some (.text 403 "Forbidden"), cache := c, fetches := [] }) ∧
    ((headerGet req "referer" == googleSiteReferer) = false →
      part001App env req c =
        { response := some (.text 403 "Access Denied"), cache := c, fetches := [] }) := by
  intro env req c
  constructor
  · intro hip href
    have hb : gateIndexBlocks req = true := by
      simp [gateIndexBlocks, hip, href]
    have hg : gateIndexStage req c =
        { response := some (.text 403 "Forbidden"), cache := c, fetches := [] } := by
      simp [gateIndexStage, hb]
    unfold indexApp
    rw [hg, andThen_some]
  · intro href
    have hb : (refererOrDefault req == googleSiteReferer) = false := by
      unfold refererOrDefault
      by_cases hEmpty : headerGet req "referer" = ""
      · rw [hEmpty]; decide
      · simp [hEmpty, href]
    have hg : gate001Stage req c =
        { response := some (.text 403 "Access Denied"), cache := c, fetches := [] } := by
      simp [gate001Stage, hb]
    unfold part001App
    rw [hg, andThen_some]

/-- C10 witness: a request with a foreign referer and a non-allowed
remote address is answered 403 by both gated pipelines with the cache
unchanged and no fetches. -/
theorem c10_gate_forbids_witness :
    indexApp envOk reqForeign [] =
      { response := some (.text 403 "Forbidden"), cache := [], fetches := [] } ∧
    part001App envOk reqForeign [] =
      { response := some (.text 403 "Access Denied"), cache := [], fetches := [] } :=
  ⟨(c10_gate_forbids envOk reqForeign []).1 (by decide) (by decide),
   (c10_gate_forbids envOk reqForeign []).2 (by decide)⟩

/-- C2 counterexample: the part_000/part_001 /e/* handler forwards the
inbound header set (here a cookie) to the upstream on a cache miss, so
the asset-proxy upstream fetch is not header-free in those variants. -/
theorem c2_counterexample :
    (eStageSized envOk reqCookie []).fetches =
      [{ url := "https://raw.githubusercontent.com/qrs/x/fixy/foo.png",
         method := "GET", headers := [("cookie", "secret")] }] ∧
    [("cookie", "secret")] ≠ ([] : List (String × String)) :=
  ⟨rfl, by decide⟩

/-- C2 amended: on a cache-miss /e/* request, src/index.js issues a
plain GET with no forwarded headers, while part_000/part_001 forward
the inbound method and the full inbound header set to the upstream. -/
theorem c2_asset_fetch_amended : ∀ (env : Env) (req : Request) (c : Cache) (t : String),
    matchesE req = true → mapHas c req.path = false → resolveTarget req.path = some t →
    (eStageIndex env req c).fetches =
      [{ url := t, method := "GET", headers := [] }] ∧
    (eStageSized env req c).fetches =
      [{ url := t, method := req.method, headers := req.headers }] := by
  intro env req c t hm hh hres
  constructor
  · cases hf : env.fetch { url := t, method := "GET", headers := [] } with
    | transportError =>
      simp [eStageIndex, hm, cacheLookup_of_not_has env.now c req.path hh, hres, hf]
    | response s body =>
      by_cases hok : isOk s = true <;>
        simp [eStageIndex, hm, cacheLookup_of_not_has env.now c req.path hh, hres, hf, hok]
  · have hc0 : mapHas (if MAX_CACHE_SIZE < cacheSize c then [] else c) req.path = false := by
      split
      · rfl
      · exact hh
    cases hf : env.fetch { url := t, method := req.method, headers := req.headers } with
    | transportError =>
      simp [eStageSized, hm, cacheLookup_of_not_has env.now _ req.path hc0, hres, hf]
    | response s body =>
      by_cases hok : isOk s = true <;>
        simp [eStageSized, hm, cacheLookup_of_not_has env.now _ req.path hc0, hres, hf, hok]

/-- C2 witness: for the same cache-miss request, src/index.js fetches
with method GET and an empty header set while the sized variants send
the inbound cookie header. -/
theorem c2_asset_fetch_amended_witness :
    (eStageIndex envOk reqCookie []).fetches =
      [{ url := "https://raw.githubusercontent.com/qrs/x/fixy/foo.png",
         method := "GET", headers := [] }] ∧
    (eStageSized envOk reqCookie []).fetches =
      [{ url := "https://raw.githubusercontent.com/qrs/x/fixy/foo.png",
         method := "GET", headers := [("cookie", "secret")] }] :=
  c2_asset_fetch_amended envOk reqCookie []
    "https://raw.githubusercontent.com/qrs/x/fixy/foo.png" (by decide) rfl rfl

/-- C5 counterexample: on a transport failure the src/index.js /e/*
handler does not decline to the next stage; the catch block surfaces a
500 error response to the client. -/
theorem c5_counterexample :
    (eStageIndex envDown reqPng []).response =
      some (.text 500 "Error fetching the asset") ∧
    (eStageIndex envDown reqPng []).response ≠ none :=
  ⟨rfl, by decide⟩

/-- C5 amended: the asset proxy declines (calls next) on a non-2xx
upstream response but surfaces a 500 error on a transport failure,
while the generic proxy surfaces the upstream status code on a non-2xx
response and a generic 500 proxy error when the upstream is
unreachable. -/
theorem c5_failure_handling_amended :
    (∀ (env : Env) (req : Request) (c : Cache) (t : String) (s : Nat) (body : List Nat),
      matchesE req = true → mapHas c req.path = false → resolveTarget req.path = some t →
      env.fetch { url := t, method := "GET", headers := [] } = .response s body →
      isOk s = false → (eStageIndex env req c).response = none) ∧
    (∀ (env : Env) (req : Request) (c : Cache) (t : String),
      matchesE req = true → mapHas c req.path = false → resolveTarget req.path = some t →
      env.fetch { url := t, method := "GET", headers := [] } = .transportError →
      (eStageIndex env req c).response = some (.text 500 "Error fetching the asset")) ∧
    (∀ (env : Env) (req : Request) (c : Cache) (target : String) (s : Nat) (body : List Nat),
      matchesA req = true → percentDecodeStr (strDrop 3 req.path) = some target →
      env.fetch { url := target ++ "?" ++ queryOf req.url, method := req.method,
                  headers := req.headers } = .response s body →
      isOk s = false → (aStage env req c).response = some (.text s "Proxy Error")) ∧
    (∀ (env : Env) (req : Request) (c : Cache) (target : String),
      matchesA req = true → percentDecodeStr (strDrop 3 req.path) = some target →
      env.fetch { url := target ++ "?" ++ queryOf req.url, method := req.method,
                  headers := req.headers } = .transportError →
      (aStage env req c).response = some (.text 500 "Proxy Error")) := by
  refine ⟨?_, ?_, ?_, ?_⟩
  · intro env req c t s body hm hh hres hf hok
    simp [eStageIndex, hm, cacheLookup_of_not_has env.now c req.path hh, hres, hf, hok]
  · intro env req c t hm hh hres hf
    simp [eStageIndex, hm, cacheLookup_of_not_has env.now c req.path hh, hres, hf]
  · intro env req c target s body hm hdec hf hok
    simp [aStage, hm, hdec, hf, hok]
  · intro env req c target hm hdec hf
    simp [aStage, hm, hdec, hf]

/-- C5 witness: a 404 upstream makes the asset handler decline and the
generic proxy answer 404; an unreachable upstream makes the asset
handler answer 500 and the generic proxy answer 500. -/
theorem c5_failure_handling_amended_witness :
    (eStageIndex env404 reqPng []).response = none ∧
    (eStageIndex envDown reqPng []).response =
      some (.text 500 "Error fetching the asset") ∧
    (aStage env404 reqProxy []).response = some (.text 404 "Proxy Error") ∧
    (aStage envDown reqProxy []).response = some (.text 500 "Proxy Error") :=
  ⟨c5_failure_handling_amended.1 env404 reqPng []
     "https://raw.githubusercontent.com/qrs/x/fixy/foo.png" 404 [] (by decide) rfl rfl rfl
     (by decide),
   c5_failure_handling_amended.2.1 envDown reqPng []
     "https://raw.githubusercontent.com/qrs/x/fixy/foo.png" (by decide) rfl rfl rfl,
   c5_failure_handling_amended.2.2.1 env404 reqProxy [] "https://example.com/x.json" 404 []
     (by decide) rfl rfl (by decide),
   c5_failure_handling_amended.2.2.2 envDown reqProxy [] "https://example.com/x.json"
     (by decide) rfl rfl⟩

/-- C9 counterexample: in part_000/part_001 a request whose resolved
upstream URL ends in .unityweb is emitted with the MIME-table type
application/vnd.unity, not the generic binary type. -/
theorem c9_counterexample :
    (eStageSized envOk reqUnity []).response =
      some (.payload 200 (some "application/vnd.unity") [7]) ∧
    some "application/vnd.unity" ≠ some "application/octet-stream" :=
  ⟨rfl, by decide⟩

/-- C9 amended: for a resolved upstream URL with extension .unityweb,
src/index.js forces the generic binary type application/octet-stream,
while part_000/part_001 have no override and emit the generic MIME
lookup result application/vnd.unity (octet-stream only as the null
fallback). -/
theorem c9_unityweb_amended : ∀ t : String, extname t = ".unityweb" →
    ctIndex t = some "application/octet-stream" ∧
    ctSized t = "application/vnd.unity" := by
  intro t h
  constructor
  · simp only [ctIndex, h]
    decide
  · simp only [ctSized, h]
    decide

/-- C9 witness: the two content-type resolutions at foo.unityweb. -/
theorem c9_unityweb_amended_witness :
    ctIndex "foo.unityweb" = some "application/octet-stream" ∧
    ctSized "foo.unityweb" = "application/vnd.unity" :=
  c9_unityweb_amended "foo.unityweb" rfl

/-- C8: the generic proxy decodes the embedded URL, reattaches the
query string, issues the fetch to that exact target with the inbound
method and full inbound header set, never touches the cache, and
surfaces a non-2xx upstream status as that same status code. -/
theorem c8_generic_proxy : ∀ (env : Env) (req : Request) (c : Cache)
    (enc q target : String) (s : Nat) (body : List Nat),
    req.method = "GET" → req.path = "/a/" ++ enc → queryOf req.url = q →
    percentDecodeStr enc = some target →
    env.fetch { url := target ++ "?" ++ q, method := req.method,
                headers := req.headers } = .response s body →
    (aStage env req c).fetches =
      [{ url := target ++ "?" ++ q, method := req.method, headers := req.headers }] ∧
    (aStage env req c).cache = c ∧
    (isOk s = false → (aStage env req c).response = some (.text s "Proxy Error")) := by
  intro env req c enc q target s body hmeth hpath hq hdec hf
  have hm : matchesA req = true := by
    unfold matchesA
    rw [hmeth, hpath]
    simp [strStartsWith_append]
  have hdrop : strDrop 3 req.path = enc := by
    rw [hpath]
    exact strDrop_len_append "/a/" enc
  refine ⟨?_, ?_, ?_⟩
  · by_cases hok : isOk s = true <;> simp [aStage, hm, hdrop, hdec, hq, hf, hok]
  · by_cases hok : isOk s = true <;> simp [aStage, hm, hdrop, hdec, hq, hf, hok]
  · intro hok
    simp [aStage, hm, hdrop, hdec, hq, hf, hok]

/-- C8 witness: the encoded example.com target with query v=2 is
fetched as https://example.com/x.json?v=2 with the inbound method and
headers, the cache is untouched, and the upstream 404 is surfaced. -/
theorem c8_generic_proxy_witness :
    (aStage env404 reqProxy []).fetches =
      [{ url := "https://example.com/x.json?v=2", method := "GET",
         headers := [("accept", "application/json")] }] ∧
    (aStage env404 reqProxy []).cache = [] ∧
    (aStage env404 reqProxy []).response = some (.text 404 "Proxy Error") := by
  have h := c8_generic_proxy env404 reqProxy [] "https%3A%2F%2Fexample.com%2Fx.json" "v=2"
    "https://example.com/x.json" 404 [] rfl rfl rfl rfl rfl
  exact ⟨h.1, h.2.1, h.2.2 (by decide)⟩

/-- C7: the asset proxy resolves the upstream URL by replacing the
matched /e/n/ prefix (first match in table order) with its mapped base
URL and appending the remainder of the path verbatim; and a GET for an
/e/ path matching no prefix performs no upstream fetch, leaves the
cache unchanged, and falls through the src/index.js pipeline to the 404
page. -/
theorem c7_resolution_and_404 :
    (∀ p, strStartsWith "/e/1/" p = true →
      resolveTarget p =
        some ("https://raw.githubusercontent.com/qrs/x/fixy/" ++ strDrop 5 p)) ∧
    (∀ p, strStartsWith "/e/2/" p = true →
      resolveTarget p =
        some ("https://raw.githubusercontent.com/3v1/V5-Assets/main/" ++ strDrop 5 p)) ∧
    (∀ p, strStartsWith "/e/3/" p = true →
      resolveTarget p =
        some ("https://raw.githubusercontent.com/3v1/V5-Retro/master/" ++ strDrop 5 p)) ∧
    (∀ (env : Env) (req : Request) (c : Cache),
      matchesE req = true → resolveTarget req.path = none → mapHas c req.path = false →
      gateIndexBlocks req = false → req.path ∉ env.staticFiles →
      indexApp env req c =
        { response := some (.file 404 "404.html"), cache := c, fetches := [] }) := by
  refine ⟨resolveTarget_e1, resolveTarget_e2, resolveTarget_e3, ?_⟩
  intro env req c hm hres hh hgate hstat
  have hpair : (req.method == "GET") = true ∧ strStartsWith "/e/" req.path = true := by
    have h2 : ((req.method == "GET") && strStartsWith "/e/" req.path) = true := hm
    rw [Bool.and_eq_true] at h2
    exact h2
  have hmeth := hpair.1
  have hsw := hpair.2
  obtain ⟨t, ht⟩ := exists_append_of_startsWith "/e/" req.path hsw
  have hpe : req.path = String.mk ('/' :: 'e' :: '/' :: t) := by
    conv_lhs => rw [← strMkData req.path]
    rw [ht]
    rfl
  have hg : gateIndexStage req c = { response := none, cache := c, fetches := [] } := by
    simp [gateIndexStage, hgate]
  have hE : eStageIndex env req c = { response := none, cache := c, fetches := [] } := by
    simp [eStageIndex, hm, cacheLookup_of_not_has env.now c req.path hh, hres]
  have hU : staticUltraStage env req c = { response := none, cache := c, fetches := [] } := by
    have hswu : strStartsWith "/assets/ultra/" req.path = false := by
      unfold strStartsWith
      rw [ht]
      rfl
    simp [staticUltraStage, hswu]
  have hS : staticStage env req c = { response := none, cache := c, fetches := [] } := by
    have hany : env.staticFiles.any (fun f => f == req.path) = false := by
      apply List.any_eq_false.mpr
      intro f hf
      simp only [beq_iff_eq]
      intro hfe
      exact hstat (hfe ▸ hf)
    simp [staticStage, hany]
  have hR : routesStage req c = { response := none, cache := c, fetches := [] } := by
    have hfind : routes.find? (fun r => r.1 == req.path) = none := by
      rw [hpe]
      rfl
    simp [routesStage, hmeth, hfind]
  simp only [indexApp, hg, andThen_none_nil, hE, hU, hS, hR]
  rfl

/-- C7 witness: /e/1/foo.unityweb resolves to the first base URL with
the remainder appended, and a GET for /e/9/anything (no prefix) yields
the 404 page with no fetch and an unchanged cache. -/
theorem c7_resolution_and_404_witness :
    resolveTarget "/e/1/foo.unityweb" =
      some "https://raw.githubusercontent.com/qrs/x/fixy/foo.unityweb" ∧
    indexApp envOk reqNoPrefix [] =
      { response := some (.file 404 "404.html"), cache := [], fetches := [] } := by
  constructor
  · exact (c7_resolution_and_404.1 "/e/1/foo.unityweb" (by decide)).trans (by decide)
  · exact c7_resolution_and_404.2.2.2 envOk reqNoPrefix [] (by decide) rfl rfl
      (by decide) (by decide)

/-- C3: the claimed first-fetch-then-cache-hit behavior holds in
src/index.js, but part_001 registers its catch-all 404 middleware
before the /e/* handler, so a first request to a prefixed asset path
performs zero upstream fetches, populates nothing, and returns the 404
page: the part_001 asset handler is unreachable, contradicting its own
stated purpose. -/
theorem c3_part001_dead_asset_handler :
    (part001App envOk reqPng []).response = some (.file 404 "404.html") ∧
    (part001App envOk reqPng []).fetches = [] ∧
    (part001App envOk reqPng []).cache = [] ∧
    (indexApp envOk reqPng []).fetches.length = 1 ∧
    (indexApp envOk reqPng ((indexApp envOk reqPng []).cache)).fetches = [] ∧
    (indexApp envOk reqPng ((indexApp envOk reqPng []).cache)).response =
      (indexApp envOk reqPng []).response :=
  ⟨rfl, rfl, rfl, rfl, rfl, rfl⟩

theorem mkPath_inj : Function.Injective mkPath := by
  intro a b h
  have hd := congrArg String.data h
  simp only [mkPath, List.cons.injEq] at hd
  have hlen := congrArg List.length hd.2.2.2.2.2
  simpa using hlen

theorem keysOf_mapSet_of_not_has (c : Cache) (k : String) (v : CacheEntry)
    (h : mapHas c k = false) : keysOf (mapSet c k v) = keysOf c ++ [k] := by
  rw [mapSet_of_not_has c k v h, keysOf_append]
  rfl

theorem strStartsWith_e1_mkPath (i : Nat) : strStartsWith "/e/1/" (mkPath i) = true := by
  have h5 : mkPath i = "/e/1/" ++ String.mk (List.replicate i 'a') := rfl
  rw [h5]
  exact strStartsWith_append _ _

theorem eStageSized_fresh_key (i : Nat) (c : Cache)
    (h1 : mkPath i ∉ keysOf c) (h2 : cacheSize c ≤ MAX_CACHE_SIZE) :
    keysOf ((eStageSized envOk (mkReq i) c).cache) = keysOf c ++ [mkPath i] := by
  have hm : matchesE (mkReq i) = true := rfl
  have hpath : (mkReq i).path = mkPath i := rfl
  have hh : mapHas c (mkPath i) = false := mapHas_false_of_not_mem c (mkPath i) h1
  have hclear : ¬ MAX_CACHE_SIZE < cacheSize c := by omega
  have hres : resolveTarget (mkPath i) =
      some ("https://raw.githubusercontent.com/qrs/x/fixy/" ++ strDrop 5 (mkPath i)) :=
    resolveTarget_e1 (mkPath i) (strStartsWith_e1_mkPath i)
  have hfetch : ∀ ur : UpstreamRequest, envOk.fetch ur = .response 200 [7] := fun _ => rfl
  simp [eStageSized, hm, hpath, hclear, cacheLookup_of_not_has envOk.now c (mkPath i) hh,
    hres, hfetch, isOk, keysOf_mapSet_of_not_has, hh]

theorem runE_append (env : Env) (l1 l2 : List Request) (c : Cache) :
    runE env (l1 ++ l2) c = runE env l2 (runE env l1 c) := by
  simp [runE, List.foldl_append]

theorem runE_keys : ∀ n, n ≤ MAX_CACHE_SIZE + 1 →
    keysOf (runE envOk ((List.range n).map mkReq) []) = (List.range n).map mkPath := by
  intro n
  induction n with
  | zero => intro _; rfl
  | succ m ih =>
    intro h
    have hkeys := ih (Nat.le_of_succ_le h)
    have hMAX : MAX_CACHE_SIZE = 100 := rfl
    have hlen := keysOf_length (runE envOk ((List.range m).map mkReq) [])
    rw [hkeys] at hlen
    simp only [List.length_map, List.length_range] at hlen
    have hsize : cacheSize (runE envOk ((List.range m).map mkReq) []) ≤ MAX_CACHE_SIZE := by
      omega
    have hnot : mkPath m ∉ keysOf (runE envOk ((List.range m).map mkReq) []) := by
      rw [hkeys]
      intro hmem
      obtain ⟨j, hj, hje⟩ := List.mem_map.mp hmem
      have hjm := mkPath_inj hje
      subst hjm
      exact absurd (List.mem_range.mp hj) (by omega)
    have hstep := eStageSized_fresh_key m _ hnot hsize
    rw [List.range_succ, List.map_append, List.map_append, runE_append]
    have hone : runE envOk ([m].map mkReq) (runE envOk ((List.range m).map mkReq) []) =
        (eStageSized envOk (mkReq m) (runE envOk ((List.range m).map mkReq) [])).cache := rfl
    rw [hone, hstep, hkeys]
    rfl

/-- C1 counterexample: issuing MAX_CACHE_SIZE + 1 requests for
pairwise-distinct prefixed paths against the part_000/part_001 handler
(upstream always succeeding) leaves the cache with MAX_CACHE_SIZE + 1
entries — more than MAX_CACHE_SIZE, and not fewer than the number of
distinct keys inserted, because the pre-check `cache.size >
MAX_CACHE_SIZE` only fires on the request after the bound is already
exceeded. -/
theorem c1_counterexample :
    cacheSize (runE envOk ((List.range (MAX_CACHE_SIZE + 1)).map mkReq) []) =
      MAX_CACHE_SIZE + 1 ∧
    MAX_CACHE_SIZE < MAX_CACHE_SIZE + 1 ∧
    (((List.range (MAX_CACHE_SIZE + 1)).map mkReq).map Request.path).Nodup := by
  refine ⟨?_, by omega, ?_⟩
  · have hk := runE_keys (MAX_CACHE_SIZE + 1) (Nat.le_refl _)
    have hlen := keysOf_length (runE envOk ((List.range (MAX_CACHE_SIZE + 1)).map mkReq) [])
    rw [hk] at hlen
    simp only [List.length_map, List.length_range] at hlen
    omega
  · have hpaths : ((List.range (MAX_CACHE_SIZE + 1)).map mkReq).map Request.path =
        (List.range (MAX_CACHE_SIZE + 1)).map mkPath := by
      rw [List.map_map]
      rfl
    rw [hpaths]
    exact (List.nodup_range _).map mkPath_inj

/-- C1 amended: in the part_000/part_001 /e/* handler the size bound is
checked at the start of each request, before any insertion, and clears
the entire cache once the count exceeds MAX_CACHE_SIZE; consequently
the cache never holds more than MAX_CACHE_SIZE + 1 entries, and
inserting more than MAX_CACHE_SIZE + 1 distinct keys leaves the cache
with fewer entries than the total inserted.  (src/index.js performs no
size check at all.) -/
theorem c1_cache_bound_amended :
    (∀ (env : Env) (reqs : List Request), cacheSize (runE env reqs []) ≤ MAX_CACHE_SIZE + 1) ∧
    (∀ n, MAX_CACHE_SIZE + 1 < n →
      cacheSize (runE envOk ((List.range n).map mkReq) []) < n) := by
  have hstep : ∀ (env : Env) (r : Request) (c : Cache), cacheSize c ≤ MAX_CACHE_SIZE + 1 →
      cacheSize ((eStageSized env r c).cache) ≤ MAX_CACHE_SIZE + 1 := by
    intro env r c h
    by_cases hm : matchesE r = true
    · have hc0 : cacheSize (if MAX_CACHE_SIZE < cacheSize c then [] else c) ≤ MAX_CACHE_SIZE := by
        split
        · simp [cacheSize]
        · omega
      cases hpair : cacheLookup env.now (if MAX_CACHE_SIZE < cacheSize c then [] else c) r.path with
      | mk o c' =>
        have hc' : cacheSize c' ≤ MAX_CACHE_SIZE := by
          have hlk := cacheLookup_snd_size env.now
            (if MAX_CACHE_SIZE < cacheSize c then [] else c) r.path
          rw [hpair] at hlk
          simp at hlk
          omega
        cases o with
        | some e =>
          simp [eStageSized, hm, hpair]
          omega
        | none =>
          cases hres : resolveTarget r.path with
          | none =>
            simp [eStageSized, hm, hpair, hres]
            omega
          | some target =>
            cases hf : env.fetch { url := target, method := r.method, headers := r.headers } with
            | transportError =>
              simp [eStageSized, hm, hpair, hres, hf]
              omega
            | response s body =>
              by_cases hok : isOk s = true
              · simp [eStageSized, hm, hpair, hres, hf, hok]
                exact Nat.le_trans (cacheSize_mapSet_le _ _ _) (by omega)
              · simp [eStageSized, hm, hpair, hres, hf, hok]
                omega
    · simp [eStageSized, hm]
      omega
  have hrun : ∀ (env : Env) (reqs : List Request) (c : Cache),
      cacheSize c ≤ MAX_CACHE_SIZE + 1 → cacheSize (runE env reqs c) ≤ MAX_CACHE_SIZE + 1 := by
    intro env reqs
    induction reqs with
    | nil => intro c h; exact h
    | cons r rs ih => intro c h; exact ih _ (hstep env r c h)
  refine ⟨fun env reqs => hrun env reqs [] (by simp [cacheSize]), fun n hn => ?_⟩
  have hb := hrun envOk ((List.range n).map mkReq) [] (by simp [cacheSize])
  omega

/-- C1 witness: inserting MAX_CACHE_SIZE + 2 distinct keys leaves
fewer entries than the total inserted. -/
theorem c1_cache_bound_amended_witness :
    cacheSize (runE envOk ((List.range (MAX_CACHE_SIZE + 2)).map mkReq) []) <
      MAX_CACHE_SIZE + 2 :=
  c1_cache_bound_amended.2 (MAX_CACHE_SIZE + 2) (by omega)

end Interstellar
